import Mathlib

/-!
# Task Manager (src/App.js): persistence and list-update flows

A shallow embedding of the three screens of `src/App.js`:

* `HomeScreen`    : state `tasks`, the effects `loadTasks` and `saveTasks`, `handleDeleteTask`;
* `AddTaskScreen` : `handleAddTask`;
* `EditTaskScreen`: `handleSaveEdit`.

Every handler is a total function on an explicit `World` that holds the `AsyncStorage`
record under the key `tasks`, the `tasks` state of the mounted `HomeScreen`, and the
observable effects (alerts, `console.error` lines, navigation requests and the storage
calls that were issued).  A rejected storage promise and a throwing `JSON.parse` are
values (`Except.error`, `none`); `try / catch` is a `match` on them.  Every storage call
has its own outcome, fixed by its position among the storage calls of the run, so a write
may reject after an earlier write resolved.
-/

namespace TaskApp

/-! ## Data model -/

/-- A task record `{ id, text }`; `id` is the `Date.now()` value taken at creation. -/
structure Task where
  id : Int
  text : String
deriving DecidableEq, Repr

/-- The two library functions `JSON.stringify` and `JSON.parse`, restricted to arrays of
task records.  `parse s = none` stands for `JSON.parse(s)` throwing. -/
structure Json where
  stringify : List Task → String
  parse : String → Option (List Task)

/-- The contract of the JSON library used by the round-trip properties: the text written
for an array is never the empty string and parses back to the same array. -/
def Json.Lawful (J : Json) : Prop :=
  ∀ l : List Task, J.stringify l ≠ "" ∧ J.parse (J.stringify l) = some l

/-! ## JavaScript string helpers -/

/-- The code points removed by `String.prototype.trim`: ECMAScript WhiteSpace and
LineTerminator. -/
def isWhiteSpace (c : Char) : Bool :=
  [0x9, 0xA, 0xB, 0xC, 0xD, 0x20, 0xA0, 0x1680, 0x2028, 0x2029, 0x202F, 0x205F, 0x3000,
    0xFEFF].contains c.toNat
    || (decide (0x2000 ≤ c.toNat) && decide (c.toNat ≤ 0x200A))

/-- The method `s.trim()`: white space removed from both ends. -/
def trim (s : String) : String :=
  ⟨((s.data.dropWhile isWhiteSpace).reverse.dropWhile isWhiteSpace).reverse⟩

/-- Truthiness of a JavaScript string: every string but the empty one. -/
def truthy (s : String) : Bool :=
  decide (s ≠ "")

/-! ## Storage and the observable world -/

/-- The `AsyncStorage` collaborator, seen through the single key `tasks`: the stored text
(`none` when the key is absent) and, for every position `n` in the sequence of storage calls
of the run (counted from 0), whether a `getItem` / `setItem` issued at that position
rejects.  The outcomes of different calls are independent of each other. -/
structure AsyncStorage where
  tasks : Option String
  getFails : Nat → Bool
  setFails : Nat → Bool

/-- A call issued to `AsyncStorage`, whether or not it succeeded. -/
inductive StorageCall where
  | getItem
  | setItem (value : String)
deriving DecidableEq, Repr

/-- Everything the handlers read or change. -/
structure World where
  /-- The device storage. -/
  storage : AsyncStorage
  /-- The state `tasks` of the mounted `HomeScreen` (the displayed list). -/
  tasks : List Task
  /-- The calls `Alert.alert(title, message, ...)`, oldest first. -/
  alerts : List (String × String)
  /-- The first argument of each `console.error` call, oldest first. -/
  errors : List String
  /-- The targets of `navigation.navigate`, oldest first. -/
  routes : List String
  /-- The storage calls issued, oldest first. -/
  calls : List StorageCall

/-- Awaiting `AsyncStorage.getItem('tasks')`: the call is recorded; the result is the
stored text, or an error when the promise rejects.  The call takes the position
`w.calls.length` among the storage calls. -/
def getItem (w : World) : Except String (Option String) × World :=
  let w1 := { w with calls := w.calls ++ [StorageCall.getItem] }
  if w.storage.getFails w.calls.length then (Except.error "getItem rejected", w1)
  else (Except.ok w.storage.tasks, w1)

/-- Awaiting `AsyncStorage.setItem('tasks', value)`: the call is recorded; on success the
stored text is overwritten, on rejection it is left as it was.  The call takes the position
`w.calls.length` among the storage calls. -/
def setItem (value : String) (w : World) : Except String Unit × World :=
  let w1 := { w with calls := w.calls ++ [StorageCall.setItem value] }
  if w.storage.setFails w.calls.length then (Except.error "setItem rejected", w1)
  else (Except.ok (), { w1 with storage := { w1.storage with tasks := some value } })

/-- The call `console.error(label, error)`. -/
def consoleError (label : String) (w : World) : World :=
  { w with errors := w.errors ++ [label] }

/-- The call `Alert.alert(title, message)`. -/
def alert (title message : String) (w : World) : World :=
  { w with alerts := w.alerts ++ [(title, message)] }

/-- The call `navigation.navigate(route)`. -/
def navigate (route : String) (w : World) : World :=
  { w with routes := w.routes ++ [route] }

/-! ## List operations of the handlers -/

/-- The expression `storedTasks ? JSON.parse(storedTasks) : []` of `handleAddTask` and
`handleSaveEdit`; `none` when `JSON.parse` throws. -/
def parseStored (J : Json) (storedTasks : Option String) : Option (List Task) :=
  match storedTasks with
  | none => some []
  | some s => if truthy s then J.parse s else some []

/-- The expression `currentTasks.map((t) => t.id === id ? { ...t, text } : t)` of
`handleSaveEdit`. -/
def replaceById (id : Int) (text : String) (currentTasks : List Task) : List Task :=
  currentTasks.map (fun t => if t.id = id then { t with text := text } else t)

/-- The expression `tasks.filter((task) => task.id !== id)` of `handleDeleteTask`. -/
def removeById (id : Int) (tasks : List Task) : List Task :=
  tasks.filter (fun task => decide (task.id ≠ id))

/-- The expression `[...currentTasks, newTask]` of `handleAddTask`. -/
def append (currentTasks : List Task) (newTask : Task) : List Task :=
  currentTasks ++ [newTask]

/-- The ids of a list, in order. -/
def ids (l : List Task) : List Int :=
  l.map Task.id

/-! ## HomeScreen -/

/-- The effect `saveTasks` (`useEffect(..., [tasks])`): writes the displayed list. -/
def saveTasks (J : Json) (w : World) : World :=
  match setItem (J.stringify w.tasks) w with
  | (Except.error _, w1) => consoleError "Error saving tasks:" w1
  | (Except.ok _, w1) => w1

/-- The state setter `setTasks` of `HomeScreen`, called with a fresh array: the state is
replaced and, `tasks` being a dependency of the `saveTasks` effect, that effect runs. -/
def setTasks (J : Json) (newTasks : List Task) (w : World) : World :=
  saveTasks J { w with tasks := newTasks }

/-- The part of `loadTasks` after `await AsyncStorage.getItem('tasks')`, given what the
await produced: `if (storedTasks) setTasks(JSON.parse(storedTasks))` inside the `try`. -/
def loadTasksResume (J : Json) (r : Except String (Option String)) (w : World) : World :=
  match r with
  | Except.error _ => consoleError "Error loading tasks:" w
  | Except.ok none => w
  | Except.ok (some storedTasks) =>
    if truthy storedTasks then
      match J.parse storedTasks with
      | none => consoleError "Error loading tasks:" w
      | some parsed => setTasks J parsed w
    else w

/-- The effect `loadTasks` run on its own. -/
def loadTasks (J : Json) (w : World) : World :=
  match getItem w with
  | (r, w1) => loadTasksResume J r w1

/-- Mounting `HomeScreen`: `useState([])`, then both effects in source order.  `loadTasks`
issues its `getItem` and suspends, `saveTasks` runs with the initial empty state, and
`loadTasks` resumes with the text that `getItem` read. -/
def mountHome (J : Json) (w : World) : World :=
  match getItem { w with tasks := [] } with
  | (r, w1) => loadTasksResume J r (saveTasks J w1)

/-- The list `loadTasks` puts on display when `HomeScreen` starts over a storage. -/
def loadAll (J : Json) (w : World) : List Task :=
  (mountHome J w).tasks

/-- The button pressed in the confirmation dialog of `handleDeleteTask`. -/
inductive DeleteChoice where
  | cancel
  | delete
deriving DecidableEq, Repr

/-- The handler `handleDeleteTask(id)` followed by the user pressing a button of the dialog;
`delete` runs `onPress`: filter the displayed list and `setTasks` the result. -/
def handleDeleteTask (J : Json) (id : Int) (choice : DeleteChoice) (w : World) : World :=
  let w1 := alert "Delete Task" "Are you sure you want to delete this task?" w
  match choice with
  | DeleteChoice.cancel => w1
  | DeleteChoice.delete =>
    let updatedTasks := removeById id w1.tasks
    setTasks J updatedTasks w1

/-! ## AddTaskScreen -/

/-- The handler `handleAddTask`, with `task` the text of the input field and `now` the value
of `Date.now()`. -/
def handleAddTask (J : Json) (now : Int) (task : String) (w : World) : World :=
  if truthy (trim task) then
    let newTask : Task := { id := now, text := task }
    let w3 :=
      match getItem w with
      | (Except.error _, w1) => consoleError "Error adding task:" w1
      | (Except.ok storedTasks, w1) =>
        match parseStored J storedTasks with
        | none => consoleError "Error adding task:" w1
        | some currentTasks =>
          let updatedTasks := append currentTasks newTask
          match setItem (J.stringify updatedTasks) w1 with
          | (Except.error _, w2) => consoleError "Error adding task:" w2
          | (Except.ok _, w2) => w2
    navigate "Home" w3
  else
    alert "Validation" "Task cannot be empty!" w

/-! ## EditTaskScreen -/

/-- The handler `handleSaveEdit`, with `task` the route parameter (the record being edited)
and `updatedTask` the text of the input field. -/
def handleSaveEdit (J : Json) (task : Task) (updatedTask : String) (w : World) : World :=
  if truthy (trim updatedTask) then
    match getItem w with
    | (Except.error _, w1) => consoleError "Error saving edit:" w1
    | (Except.ok storedTasks, w1) =>
      match parseStored J storedTasks with
      | none => consoleError "Error saving edit:" w1
      | some currentTasks =>
        let updatedTasks := replaceById task.id updatedTask currentTasks
        match setItem (J.stringify updatedTasks) w1 with
        | (Except.error _, w2) => consoleError "Error saving edit:" w2
        | (Except.ok _, w2) => navigate "Home" (setTasks J updatedTasks w2)
  else
    alert "Validation" "Task cannot be empty!" w

/-- The composition `saveAll(loadAll())` read sequentially: a fresh `HomeScreen` state, the
whole of `loadTasks`, then the `saveTasks` effect. -/
def saveAfterLoad (J : Json) (w : World) : World :=
  saveTasks J (loadTasks J { w with tasks := [] })

/-! ## Sequences of operations -/

/-- The create flow run once per element of `ts`, in order: each element supplies the
`Date.now()` value and the text typed for one `handleAddTask`. -/
def appendAll (J : Json) (ts : List Task) (w : World) : World :=
  ts.foldl (fun acc t => handleAddTask J t.id t.text acc) w

/-- Lists obtained from the empty list by the three list operations of the handlers, where
a create only happens with an id that does not occur yet. -/
inductive Reachable : List Task → Prop where
  | empty : Reachable []
  | append (l : List Task) (t : Task) : Reachable l → t.id ∉ ids l → Reachable (append l t)
  | replace (l : List Task) (id : Int) (text : String) :
      Reachable l → Reachable (replaceById id text l)
  | remove (l : List Task) (id : Int) : Reachable l → Reachable (removeById id l)

/-! ## A concrete JSON-like codec

A small total serializer and parser for task arrays, used to instantiate `Json` on concrete
inputs: numbers are written in unary, a text is written as its length followed by its
characters, and an array as `[`, its length, its records and `]`. -/

/-- A natural number in unary: `n` times `1`, then `0`. -/
def encNat (n : Nat) : List Char :=
  List.replicate n '1' ++ ['0']

/-- Reads a unary natural number and returns it with the rest of the input. -/
def decNat : List Char → Option (Nat × List Char)
  | [] => none
  | c :: r =>
    if c = '1' then (decNat r).map (fun p => (p.1 + 1, p.2))
    else if c = '0' then some (0, r)
    else none

/-- An integer: a sign character, then a unary natural number. -/
def encInt : Int → List Char
  | Int.ofNat n => '+' :: encNat n
  | Int.negSucc n => '-' :: encNat n

/-- Reads an integer and returns it with the rest of the input. -/
def decInt : List Char → Option (Int × List Char)
  | [] => none
  | c :: r =>
    if c = '+' then (decNat r).map (fun p => (Int.ofNat p.1, p.2))
    else if c = '-' then (decNat r).map (fun p => (Int.negSucc p.1, p.2))
    else none

/-- A record: its id, the length of its text, the characters of its text. -/
def encTask (t : Task) : List Char :=
  encInt t.id ++ (encNat t.text.data.length ++ t.text.data)

/-- Reads one record and returns it with the rest of the input. -/
def decTask (cs : List Char) : Option (Task × List Char) :=
  match decInt cs with
  | none => none
  | some (i, r) =>
    match decNat r with
    | none => none
    | some (n, r2) =>
      if n ≤ r2.length then some ({ id := i, text := ⟨r2.take n⟩ }, r2.drop n) else none

/-- The records of an array, one after another. -/
def encTasks : List Task → List Char
  | [] => []
  | t :: ts => encTask t ++ encTasks ts

/-- Reads `n` records and returns them with the rest of the input. -/
def decTasks : Nat → List Char → Option (List Task × List Char)
  | 0, r => some ([], r)
  | n + 1, r =>
    match decTask r with
    | none => none
    | some (t, r1) =>
      match decTasks n r1 with
      | none => none
      | some (ts, r2) => some (t :: ts, r2)

/-- The text written for an array of records. -/
def unaryStringify (l : List Task) : String :=
  ⟨'[' :: (encNat l.length ++ (encTasks l ++ [']']))⟩

/-- Parses a text written by `unaryStringify`; `none` on anything else. -/
def unaryParse (s : String) : Option (List Task) :=
  match s.data with
  | [] => none
  | c :: r =>
    if c = '[' then
      match decNat r with
      | none => none
      | some (n, r1) =>
        match decTasks n r1 with
        | none => none
        | some (l, rest) => if rest = [']'] then some l else none
    else none

/-- The concrete codec. -/
def unaryJson : Json :=
  { stringify := unaryStringify, parse := unaryParse }

/-- A world with working, empty storage, nothing displayed and no effect recorded. -/
def emptyWorld : World :=
  { storage := { tasks := none, getFails := fun _ => false, setFails := fun _ => false },
    tasks := [], alerts := [], errors := [], routes := [], calls := [] }

/-! ## The concrete codec satisfies the JSON contract -/

theorem decNat_encNat (n : Nat) (r : List Char) : decNat (encNat n ++ r) = some (n, r) := by
  induction n with
  | zero => simp [encNat, decNat]
  | succ k ih =>
    have h : encNat (k + 1) ++ r = '1' :: (encNat k ++ r) := by
      simp [encNat, List.replicate_succ]
    rw [h, decNat, if_pos rfl, ih]
    rfl

theorem decInt_encInt (i : Int) (r : List Char) : decInt (encInt i ++ r) = some (i, r) := by
  cases i with
  | ofNat n => simp [encInt, decInt, decNat_encNat]
  | negSucc n => simp [encInt, decInt, decNat_encNat]

theorem decTask_encTask (t : Task) (r : List Char) :
    decTask (encTask t ++ r) = some (t, r) := by
  have h : encTask t ++ r = encInt t.id ++ (encNat t.text.data.length ++ (t.text.data ++ r)) := by
    simp [encTask, List.append_assoc]
  rw [h, decTask, decInt_encInt]
  simp only [decNat_encNat]
  simp

theorem decTasks_encTasks (l : List Task) (r : List Char) :
    decTasks l.length (encTasks l ++ r) = some (l, r) := by
  induction l with
  | nil => simp [encTasks, decTasks]
  | cons t ts ih =>
    have h : encTasks (t :: ts) ++ r = encTask t ++ (encTasks ts ++ r) := by
      simp [encTasks, List.append_assoc]
    rw [List.length_cons, h, decTasks, decTask_encTask]
    simp only [ih]

theorem unaryJson_lawful : unaryJson.Lawful := by
  intro l
  refine ⟨?_, ?_⟩
  · intro h
    have h2 := congrArg String.data h
    simp [unaryJson, unaryStringify] at h2
  · show unaryParse (unaryStringify l) = some l
    simp only [unaryParse, unaryStringify]
    rw [if_pos trivial, decNat_encNat]
    simp only [decTasks_encTasks]
    simp

/-! ## List-level facts about the three operations -/

theorem ids_replaceById (i : Int) (s : String) (l : List Task) :
    ids (replaceById i s l) = ids l := by
  induction l with
  | nil => rfl
  | cons t ts ih =>
    simp only [replaceById, ids, List.map_cons] at ih ⊢
    rw [ih]
    by_cases h : t.id = i <;> simp [h]

theorem replaceById_of_not_mem (i : Int) (s : String) (l : List Task) (h : i ∉ ids l) :
    replaceById i s l = l := by
  induction l with
  | nil => rfl
  | cons t ts ih =>
    simp only [ids, List.map_cons, List.mem_cons, not_or] at h
    have h1 : ¬ t.id = i := fun e => h.1 e.symm
    have h2 := ih h.2
    simp only [replaceById, List.map_cons] at h2 ⊢
    rw [h2, if_neg h1]

theorem mem_removeById (i : Int) (l : List Task) (t : Task) :
    t ∈ removeById i l ↔ t ∈ l ∧ t.id ≠ i := by
  simp [removeById, List.mem_filter]

theorem removeById_of_not_mem (i : Int) (l : List Task) (h : i ∉ ids l) :
    removeById i l = l := by
  induction l with
  | nil => rfl
  | cons t ts ih =>
    simp only [ids, List.map_cons, List.mem_cons, not_or] at h
    have h1 : ¬ t.id = i := fun e => h.1 e.symm
    have h2 := ih h.2
    have h3 : decide (t.id ≠ i) = true := by simp [h1]
    simp only [removeById] at h2 ⊢
    rw [List.filter_cons, if_pos h3, h2]

theorem length_removeById_add_count (i : Int) (l : List Task) :
    (removeById i l).length + (ids l).count i = l.length := by
  induction l with
  | nil => rfl
  | cons t ts ih =>
    simp only [removeById, ids] at ih ⊢
    by_cases h : t.id = i
    · have h3 : ¬ (decide (t.id ≠ i) = true) := by simp [h]
      rw [List.filter_cons, if_neg h3, List.map_cons, List.count_cons, List.length_cons]
      simp only [h, beq_self_eq_true, if_true]
      omega
    · have h3 : decide (t.id ≠ i) = true := by simp [h]
      have h4 : (t.id == i) = false := by simp [h]
      rw [List.filter_cons, if_pos h3, List.map_cons, List.count_cons, List.length_cons,
        List.length_cons, h4]
      simp only [Bool.false_eq_true, if_false]
      omega

theorem ids_removeById_sublist (i : Int) (l : List Task) :
    (ids (removeById i l)).Sublist (ids l) := by
  simp only [ids, removeById]
  exact (List.filter_sublist l).map Task.id

theorem nodup_ids_append (l : List Task) (t : Task) (h : (ids l).Nodup) (hfresh : t.id ∉ ids l) :
    (ids (append l t)).Nodup := by
  simp only [ids, append, List.map_append, List.map_cons, List.map_nil] at *
  rw [List.nodup_append]
  refine ⟨h, List.nodup_singleton _, ?_⟩
  intro a ha hb
  simp only [List.mem_singleton] at hb
  subst hb
  exact hfresh ha

theorem nodup_ids_of_reachable (l : List Task) (h : Reachable l) : (ids l).Nodup := by
  induction h with
  | empty => simp [ids]
  | append l t _ hfresh ih => exact nodup_ids_append l t ih hfresh
  | replace l i s _ ih => rw [ids_replaceById]; exact ih
  | remove l i _ ih => exact ih.sublist (ids_removeById_sublist i l)

/-! ## Facts about the handlers -/

theorem truthy_trim_eq_false (s : String) (h : trim s = "") : truthy (trim s) = false := by
  simp [truthy, h]

theorem truthy_trim_eq_true (s : String) (h : trim s ≠ "") : truthy (trim s) = true := by
  simp [truthy, h]

theorem parseStored_stringify (J : Json) (hJ : J.Lawful) (l : List Task) :
    parseStored J (some (J.stringify l)) = some l := by
  simp [parseStored, truthy, (hJ l).1, (hJ l).2]

theorem handleAddTask_blank (J : Json) (now : Int) (task : String) (w : World)
    (h : trim task = "") :
    handleAddTask J now task w = alert "Validation" "Task cannot be empty!" w := by
  simp [handleAddTask, truthy_trim_eq_false task h]

theorem handleSaveEdit_blank (J : Json) (task : Task) (updatedTask : String) (w : World)
    (h : trim updatedTask = "") :
    handleSaveEdit J task updatedTask w = alert "Validation" "Task cannot be empty!" w := by
  simp [handleSaveEdit, truthy_trim_eq_false updatedTask h]

theorem handleAddTask_getFails (J : Json) (now : Int) (task : String) (w : World)
    (ht : trim task ≠ "") (hg : w.storage.getFails w.calls.length = true) :
    handleAddTask J now task w =
      navigate "Home" (consoleError "Error adding task:"
        { w with calls := w.calls ++ [StorageCall.getItem] }) := by
  simp [handleAddTask, getItem, truthy_trim_eq_true task ht, hg]

theorem handleAddTask_parseFails (J : Json) (now : Int) (task : String) (w : World)
    (ht : trim task ≠ "") (hg : w.storage.getFails w.calls.length = false)
    (hp : parseStored J w.storage.tasks = none) :
    handleAddTask J now task w =
      navigate "Home" (consoleError "Error adding task:"
        { w with calls := w.calls ++ [StorageCall.getItem] }) := by
  simp [handleAddTask, getItem, truthy_trim_eq_true task ht, hg, hp]

theorem handleAddTask_setFails (J : Json) (now : Int) (task : String) (w : World)
    (l : List Task) (ht : trim task ≠ "") (hg : w.storage.getFails w.calls.length = false)
    (hp : parseStored J w.storage.tasks = some l)
    (hs : w.storage.setFails (w.calls.length + 1) = true) :
    handleAddTask J now task w =
      navigate "Home" (consoleError "Error adding task:"
        { w with calls := w.calls ++ [StorageCall.getItem] ++
            [StorageCall.setItem (J.stringify (append l { id := now, text := task }))] }) := by
  simp [handleAddTask, getItem, setItem, truthy_trim_eq_true task ht, hg, hp, hs]

theorem handleAddTask_ok (J : Json) (now : Int) (task : String) (w : World)
    (l : List Task) (ht : trim task ≠ "") (hg : w.storage.getFails w.calls.length = false)
    (hp : parseStored J w.storage.tasks = some l)
    (hs : w.storage.setFails (w.calls.length + 1) = false) :
    handleAddTask J now task w =
      navigate "Home"
        { w with
          storage := { w.storage with
            tasks := some (J.stringify (append l { id := now, text := task })) },
          calls := w.calls ++ [StorageCall.getItem] ++
            [StorageCall.setItem (J.stringify (append l { id := now, text := task }))] } := by
  simp [handleAddTask, getItem, setItem, truthy_trim_eq_true task ht, hg, hp, hs]

theorem handleAddTask_tasks (J : Json) (now : Int) (task : String) (w : World) :
    (handleAddTask J now task w).tasks = w.tasks := by
  by_cases ht : trim task = ""
  · rw [handleAddTask_blank J now task w ht]; rfl
  · cases hg : w.storage.getFails w.calls.length with
    | true => rw [handleAddTask_getFails J now task w ht hg]; rfl
    | false =>
      cases hp : parseStored J w.storage.tasks with
      | none => rw [handleAddTask_parseFails J now task w ht hg hp]; rfl
      | some l =>
        cases hs : w.storage.setFails (w.calls.length + 1) with
        | true => rw [handleAddTask_setFails J now task w l ht hg hp hs]; rfl
        | false => rw [handleAddTask_ok J now task w l ht hg hp hs]; rfl

theorem handleSaveEdit_getFails (J : Json) (task : Task) (text : String) (w : World)
    (ht : trim text ≠ "") (hg : w.storage.getFails w.calls.length = true) :
    handleSaveEdit J task text w =
      consoleError "Error saving edit:" { w with calls := w.calls ++ [StorageCall.getItem] } := by
  simp [handleSaveEdit, getItem, truthy_trim_eq_true text ht, hg]

theorem handleSaveEdit_parseFails (J : Json) (task : Task) (text : String) (w : World)
    (ht : trim text ≠ "") (hg : w.storage.getFails w.calls.length = false)
    (hp : parseStored J w.storage.tasks = none) :
    handleSaveEdit J task text w =
      consoleError "Error saving edit:" { w with calls := w.calls ++ [StorageCall.getItem] } := by
  simp [handleSaveEdit, getItem, truthy_trim_eq_true text ht, hg, hp]

theorem handleSaveEdit_setFails (J : Json) (task : Task) (text : String) (w : World)
    (l : List Task) (ht : trim text ≠ "") (hg : w.storage.getFails w.calls.length = false)
    (hp : parseStored J w.storage.tasks = some l)
    (hs : w.storage.setFails (w.calls.length + 1) = true) :
    handleSaveEdit J task text w =
      consoleError "Error saving edit:"
        { w with calls := w.calls ++ [StorageCall.getItem] ++
            [StorageCall.setItem (J.stringify (replaceById task.id text l))] } := by
  simp [handleSaveEdit, getItem, setItem, truthy_trim_eq_true text ht, hg, hp, hs]

theorem handleSaveEdit_ok (J : Json) (task : Task) (text : String) (w : World)
    (l : List Task) (ht : trim text ≠ "") (hg : w.storage.getFails w.calls.length = false)
    (hp : parseStored J w.storage.tasks = some l)
    (hs : w.storage.setFails (w.calls.length + 1) = false)
    (he : w.storage.setFails (w.calls.length + 2) = false) :
    handleSaveEdit J task text w =
      navigate "Home"
        { w with
          storage := { w.storage with
            tasks := some (J.stringify (replaceById task.id text l)) },
          tasks := replaceById task.id text l,
          calls := w.calls ++ [StorageCall.getItem] ++
            [StorageCall.setItem (J.stringify (replaceById task.id text l))] ++
            [StorageCall.setItem (J.stringify (replaceById task.id text l))] } := by
  simp [handleSaveEdit, getItem, setItem, setTasks, saveTasks, truthy_trim_eq_true text ht,
    hg, hp, hs, he]

theorem handleSaveEdit_effectFails (J : Json) (task : Task) (text : String) (w : World)
    (l : List Task) (ht : trim text ≠ "") (hg : w.storage.getFails w.calls.length = false)
    (hp : parseStored J w.storage.tasks = some l)
    (hs : w.storage.setFails (w.calls.length + 1) = false)
    (he : w.storage.setFails (w.calls.length + 2) = true) :
    handleSaveEdit J task text w =
      navigate "Home" (consoleError "Error saving tasks:"
        { w with
          storage := { w.storage with
            tasks := some (J.stringify (replaceById task.id text l)) },
          tasks := replaceById task.id text l,
          calls := w.calls ++ [StorageCall.getItem] ++
            [StorageCall.setItem (J.stringify (replaceById task.id text l))] ++
            [StorageCall.setItem (J.stringify (replaceById task.id text l))] }) := by
  simp [handleSaveEdit, getItem, setItem, setTasks, saveTasks, consoleError, navigate,
    truthy_trim_eq_true text ht, hg, hp, hs, he]

theorem mountHome_storage (J : Json) (w : World)
    (hget : ∀ n, w.storage.getFails n = w.storage.getFails 0)
    (hset : ∀ n, w.storage.setFails n = w.storage.setFails 0) :
    (mountHome J w).storage =
      if w.storage.setFails 0 = true then w.storage
      else { w.storage with
        tasks := some (J.stringify
          (if w.storage.getFails 0 = true then [] else (parseStored J w.storage.tasks).getD [])) } := by
  cases hs : w.storage.setFails 0 <;> cases hg : w.storage.getFails 0 <;>
    (have hs2 := fun n => (hset n).trans hs) <;>
    (have hg2 := fun n => (hget n).trans hg) <;>
    simp only [mountHome, getItem, loadTasksResume, saveTasks, setItem, setTasks, consoleError,
      parseStored, hs2, hg2] <;>
    (try rcases hb : w.storage.tasks with _ | b) <;>
    (try cases ht : truthy b) <;>
    (try cases hp : J.parse b) <;>
    simp_all

theorem saveAfterLoad_storage (J : Json) (w : World)
    (hget : ∀ n, w.storage.getFails n = w.storage.getFails 0)
    (hset : ∀ n, w.storage.setFails n = w.storage.setFails 0) :
    (saveAfterLoad J w).storage =
      if w.storage.setFails 0 = true then w.storage
      else { w.storage with
        tasks := some (J.stringify
          (if w.storage.getFails 0 = true then [] else (parseStored J w.storage.tasks).getD [])) } := by
  cases hs : w.storage.setFails 0 <;> cases hg : w.storage.getFails 0 <;>
    (have hs2 := fun n => (hset n).trans hs) <;>
    (have hg2 := fun n => (hget n).trans hg) <;>
    simp only [saveAfterLoad, loadTasks, getItem, loadTasksResume, saveTasks, setItem, setTasks,
      consoleError, parseStored, hs2, hg2] <;>
    (try rcases hb : w.storage.tasks with _ | b) <;>
    (try cases ht : truthy b) <;>
    (try cases hp : J.parse b) <;>
    simp_all

theorem mountHome_tasks (J : Json) (w : World) (l : List Task)
    (hg : w.storage.getFails w.calls.length = false)
    (hp : parseStored J w.storage.tasks = some l) :
    (mountHome J w).tasks = l := by
  cases hs : w.storage.setFails (w.calls.length + 1) <;>
    cases he : w.storage.setFails (w.calls.length + 2) <;>
    simp only [mountHome, getItem, loadTasksResume, saveTasks, setItem, setTasks, consoleError,
      parseStored, hs, he, hg, List.length_append, List.length_singleton] at hp ⊢ <;>
    (try rcases hb : w.storage.tasks with _ | b) <;>
    (try cases ht : truthy b) <;>
    (try cases hq : J.parse b) <;>
    simp_all

theorem task_eta (t : Task) : ({ id := t.id, text := t.text } : Task) = t := by
  cases t
  rfl

theorem appendAll_storage (J : Json) (hJ : J.Lawful) (ts : List Task) :
    ∀ (w : World) (l : List Task), (∀ n, w.storage.getFails n = false) →
      (∀ n, w.storage.setFails n = false) →
      parseStored J w.storage.tasks = some l → (∀ t ∈ ts, trim t.text ≠ "") →
      (appendAll J ts w).storage.getFails = w.storage.getFails ∧
      (appendAll J ts w).storage.setFails = w.storage.setFails ∧
      parseStored J (appendAll J ts w).storage.tasks = some (l ++ ts) := by
  induction ts with
  | nil =>
    intro w l _ _ hp _
    simp [appendAll, hp]
  | cons t rest ih =>
    intro w l hg hs hp hne
    have ht : trim t.text ≠ "" := hne t (List.mem_cons_self t rest)
    have hstep := handleAddTask_ok J t.id t.text w l ht (hg _) hp (hs _)
    have hrest : ∀ u ∈ rest, trim u.text ≠ "" := fun u hu => hne u (List.mem_cons_of_mem t hu)
    have h := ih (handleAddTask J t.id t.text w) (append l { id := t.id, text := t.text })
      (by rw [hstep]; exact hg) (by rw [hstep]; exact hs)
      (by rw [hstep]; exact parseStored_stringify J hJ _) hrest
    have hfold : appendAll J (t :: rest) w = appendAll J rest (handleAddTask J t.id t.text w) := rfl
    rw [hfold]
    refine ⟨?_, ?_, ?_⟩
    · rw [h.1, hstep]; rfl
    · rw [h.2.1, hstep]; rfl
    · rw [h.2.2, task_eta]
      simp [append]

/-! ## The claims -/

/-- C1. `replaceById` (the `map` of `handleSaveEdit` over the loaded list) keeps the length,
leaves every record whose id differs from `i` unchanged at its position, gives every record
whose id equals `i` the text `s` and the same id, and is the identity when no record has id
`i`; and when its read and its own write succeed, `handleSaveEdit` with a non-blank text
displays and persists exactly `replaceById task.id s l` for the loaded list `l`, whatever
the outcome of the later write of the `saveTasks` effect. -/
theorem replaceById_spec (J : Json) (w : World) (task : Task) (i : Int) (s : String)
    (l : List Task) :
    (replaceById i s l).length = l.length ∧
    (∀ (k : Nat) (t : Task), l[k]? = some t → t.id ≠ i → (replaceById i s l)[k]? = some t) ∧
    (∀ (k : Nat) (t : Task), l[k]? = some t → t.id = i →
      (replaceById i s l)[k]? = some { id := t.id, text := s }) ∧
    ((∀ t ∈ l, t.id ≠ i) → replaceById i s l = l) ∧
    (trim s ≠ "" → w.storage.getFails w.calls.length = false →
      w.storage.setFails (w.calls.length + 1) = false →
      parseStored J w.storage.tasks = some l →
      (handleSaveEdit J task s w).tasks = replaceById task.id s l ∧
      (handleSaveEdit J task s w).storage.tasks = some (J.stringify (replaceById task.id s l))) := by
  refine ⟨by simp [replaceById], ?_, ?_, ?_, ?_⟩
  · intro k t hk hne
    simp [replaceById, List.getElem?_map, hk, hne]
  · intro k t hk he
    simp [replaceById, List.getElem?_map, hk, he]
  · intro h
    apply replaceById_of_not_mem
    intro hmem
    simp only [ids, List.mem_map] at hmem
    obtain ⟨t, ht, hid⟩ := hmem
    exact h t ht hid
  · intro ht hg hs hp
    cases he : w.storage.setFails (w.calls.length + 2) with
    | false =>
      rw [handleSaveEdit_ok J task s w l ht hg hp hs he]
      exact ⟨rfl, rfl⟩
    | true =>
      rw [handleSaveEdit_effectFails J task s w l ht hg hp hs he]
      exact ⟨rfl, rfl⟩

/-- Witness of C1: the scenario `[{id:1,text:"a"},{id:2,text:"b"}]`, edit of record 2 to
`"b2"`, over working storage. -/
theorem replaceById_spec_witness :
    (handleSaveEdit unaryJson { id := 2, text := "b" } "b2"
      { emptyWorld with storage := { emptyWorld.storage with
          tasks := some (unaryStringify [{ id := 1, text := "a" }, { id := 2, text := "b" }]) }
      }).tasks = replaceById 2 "b2" [{ id := 1, text := "a" }, { id := 2, text := "b" }] ∧
    replaceById 2 "b2" [{ id := 1, text := "a" }, { id := 2, text := "b" }] =
      [{ id := 1, text := "a" }, { id := 2, text := "b2" }] ∧
    replaceById 3 "b2" [{ id := 1, text := "a" }, { id := 2, text := "b" }] =
      [{ id := 1, text := "a" }, { id := 2, text := "b" }] :=
  ⟨((replaceById_spec unaryJson
      { emptyWorld with storage := { emptyWorld.storage with
          tasks := some (unaryStringify [{ id := 1, text := "a" }, { id := 2, text := "b" }]) } }
      { id := 2, text := "b" } 2 "b2"
      [{ id := 1, text := "a" }, { id := 2, text := "b" }]).2.2.2.2
      (by decide) rfl rfl (by decide)).1,
    by decide,
    (replaceById_spec unaryJson emptyWorld { id := 3, text := "" } 3 "b2"
      [{ id := 1, text := "a" }, { id := 2, text := "b" }]).2.2.2.1 (by decide)⟩

/-- C2, as stated, fails: on a list holding two records with id 1 the confirmed delete of id 1
removes both, so the result has length `n - 2`, not `n - 1`. -/
theorem removeById_length_counterexample :
    (∃ t ∈ [({ id := 1, text := "a" } : Task), { id := 1, text := "b" }], t.id = 1) ∧
    (removeById 1 [{ id := 1, text := "a" }, { id := 1, text := "b" }]).length ≠
      [({ id := 1, text := "a" } : Task), { id := 1, text := "b" }].length - 1 ∧
    (handleDeleteTask unaryJson 1 DeleteChoice.delete
      { emptyWorld with tasks := [{ id := 1, text := "a" }, { id := 1, text := "b" }] }).tasks
      = [] := by
  decide

/-- C2, amended. The confirmed delete of `handleDeleteTask` replaces the displayed list by
`removeById i` of it; the result holds no record with id `i`; its length is `n` minus the
number of records with id `i`, hence `n - 1` when the ids of the list are pairwise distinct
and `i` occurs; and the result equals the list when `i` does not occur. -/
theorem removeById_spec (J : Json) (w : World) (i : Int) (l : List Task) :
    (handleDeleteTask J i DeleteChoice.delete w).tasks = removeById i w.tasks ∧
    (∀ t ∈ removeById i l, t.id ≠ i) ∧
    (removeById i l).length + (ids l).count i = l.length ∧
    ((ids l).Nodup → i ∈ ids l → (removeById i l).length = l.length - 1) ∧
    (i ∉ ids l → removeById i l = l) := by
  refine ⟨?_, ?_, length_removeById_add_count i l, ?_, removeById_of_not_mem i l⟩
  · cases hs : w.storage.setFails w.calls.length <;>
      simp [handleDeleteTask, setTasks, saveTasks, setItem, alert, consoleError, hs]
  · intro t ht
    exact ((mem_removeById i l t).1 ht).2
  · intro hnd hmem
    have hc : (ids l).count i = 1 := List.count_eq_one_of_mem hnd hmem
    have h := length_removeById_add_count i l
    omega

/-- Witness of C2 amended: the scenario `[{id:1,text:"a"},{id:2,text:"b"}]`, delete of 1. -/
theorem removeById_spec_witness :
    (removeById 1 [{ id := 1, text := "a" }, { id := 2, text := "b" }]).length = 2 - 1 ∧
    removeById 3 [{ id := 1, text := "a" }, { id := 2, text := "b" }] =
      [{ id := 1, text := "a" }, { id := 2, text := "b" }] :=
  ⟨(removeById_spec unaryJson emptyWorld 1
      [{ id := 1, text := "a" }, { id := 2, text := "b" }]).2.2.2.1 (by decide) (by decide),
   (removeById_spec unaryJson emptyWorld 3
      [{ id := 1, text := "a" }, { id := 2, text := "b" }]).2.2.2.2 (by decide)⟩

/-- C3. With storage whose reads and writes all succeed and a lawful JSON codec, one
`handleAddTask` with non-blank text
turns the persisted list `l` into `l ++ [t]`, and after any sequence of such appends over
empty storage, the ids being pairwise distinct, a starting `HomeScreen` loads exactly the
appended tasks in append order. -/
theorem append_then_loadAll (J : Json) (hJ : J.Lawful) (w : World)
    (hg : ∀ n, w.storage.getFails n = false) (hs : ∀ n, w.storage.setFails n = false) :
    (∀ (l : List Task) (now : Int) (task : String), trim task ≠ "" →
      parseStored J w.storage.tasks = some l →
      (handleAddTask J now task w).storage.tasks =
        some (J.stringify (l ++ [{ id := now, text := task }])) ∧
      loadAll J (handleAddTask J now task w) = l ++ [{ id := now, text := task }]) ∧
    (∀ ts : List Task, w.storage.tasks = none → (∀ t ∈ ts, trim t.text ≠ "") →
      (ids ts).Nodup → loadAll J (appendAll J ts w) = ts) := by
  constructor
  · intro l now task ht hp
    have hstep := handleAddTask_ok J now task w l ht (hg _) hp (hs _)
    refine ⟨by rw [hstep]; rfl, ?_⟩
    apply mountHome_tasks
    · rw [hstep]; exact hg _
    · rw [hstep]; exact parseStored_stringify J hJ _
  · intro ts hempty hne _
    have hp : parseStored J w.storage.tasks = some [] := by rw [hempty]; rfl
    have h := appendAll_storage J hJ ts w [] hg hs hp hne
    apply mountHome_tasks J _ ts
    · rw [h.1]; exact hg _
    · simpa using h.2.2

/-- Witness of C3: two appends over empty storage, then a load. -/
theorem append_then_loadAll_witness :
    loadAll unaryJson
      (appendAll unaryJson [{ id := 1, text := "buy milk" }, { id := 2, text := "b" }]
        emptyWorld) = [{ id := 1, text := "buy milk" }, { id := 2, text := "b" }] :=
  (append_then_loadAll unaryJson unaryJson_lawful emptyWorld (fun _ => rfl) (fun _ => rfl)).2
    [{ id := 1, text := "buy milk" }, { id := 2, text := "b" }] rfl (by decide) (by decide)

/-- C4, the code at the failing input: over empty working storage `handleAddTask` with text
`"buy milk"` persists `[{id:1,text:"buy milk"}]` and navigates to `Home` without an error,
while the displayed list of `HomeScreen` is still empty; a confirmed delete issued from that
stale display then overwrites the persisted list with the empty one. -/
theorem handleAddTask_displayed_stale :
    (handleAddTask unaryJson 1 "buy milk" emptyWorld).tasks = [] ∧
    parseStored unaryJson (handleAddTask unaryJson 1 "buy milk" emptyWorld).storage.tasks =
      some [{ id := 1, text := "buy milk" }] ∧
    (handleAddTask unaryJson 1 "buy milk" emptyWorld).routes = ["Home"] ∧
    (handleAddTask unaryJson 1 "buy milk" emptyWorld).errors = [] ∧
    (handleAddTask unaryJson 1 "buy milk" emptyWorld).tasks ≠
      [{ id := 1, text := "buy milk" }] ∧
    parseStored unaryJson (handleDeleteTask unaryJson 5 DeleteChoice.delete
      (handleAddTask unaryJson 1 "buy milk" emptyWorld)).storage.tasks = some [] := by
  decide

/-- C5. For a text whose trim is empty `handleAddTask` issues no storage call, leaves the
storage and the displayed list as they were and raises the validation alert; for a text whose
trim is not empty it raises no alert. -/
theorem handleAddTask_validation (J : Json) (now : Int) (task : String) (w : World) :
    (trim task = "" →
      (handleAddTask J now task w).storage = w.storage ∧
      (handleAddTask J now task w).calls = w.calls ∧
      (handleAddTask J now task w).tasks = w.tasks ∧
      (handleAddTask J now task w).routes = w.routes ∧
      (handleAddTask J now task w).alerts =
        w.alerts ++ [("Validation", "Task cannot be empty!")]) ∧
    (trim task ≠ "" → (handleAddTask J now task w).alerts = w.alerts) := by
  constructor
  · intro h
    rw [handleAddTask_blank J now task w h]
    exact ⟨rfl, rfl, rfl, rfl, rfl⟩
  · intro ht
    cases hg : w.storage.getFails w.calls.length with
    | true => rw [handleAddTask_getFails J now task w ht hg]; rfl
    | false =>
      cases hp : parseStored J w.storage.tasks with
      | none => rw [handleAddTask_parseFails J now task w ht hg hp]; rfl
      | some l =>
        cases hs : w.storage.setFails (w.calls.length + 1) with
        | true => rw [handleAddTask_setFails J now task w l ht hg hp hs]; rfl
        | false => rw [handleAddTask_ok J now task w l ht hg hp hs]; rfl

/-- Witness of C5: a text of blanks and a tab is rejected, the text `"a"` is not. -/
theorem handleAddTask_validation_witness :
    (handleAddTask unaryJson 1 "  \t " emptyWorld).alerts =
      emptyWorld.alerts ++ [("Validation", "Task cannot be empty!")] ∧
    (handleAddTask unaryJson 1 "a" emptyWorld).alerts = emptyWorld.alerts :=
  ⟨((handleAddTask_validation unaryJson 1 "  \t " emptyWorld).1 (by decide)).2.2.2.2,
   (handleAddTask_validation unaryJson 1 "a" emptyWorld).2 (by decide)⟩

/-- C6, as stated, fails: the text `"oops"` does not parse, and `handleAddTask` over it writes
nothing (the storage still holds `"oops"`), while over absent storage it persists the list
`[{id:1,text:"a"}]`; `handleSaveEdit` likewise writes nothing, displays nothing new and does
not navigate over `"oops"`, while over absent storage it persists the empty list and
navigates. -/
theorem parse_failure_differs_from_no_data :
    unaryJson.parse "oops" = none ∧
    (handleAddTask unaryJson 1 "a"
      { emptyWorld with storage := { emptyWorld.storage with tasks := some "oops" } }).storage.tasks
      = some "oops" ∧
    parseStored unaryJson (handleAddTask unaryJson 1 "a" emptyWorld).storage.tasks =
      some [{ id := 1, text := "a" }] ∧
    (handleAddTask unaryJson 1 "a"
      { emptyWorld with storage := { emptyWorld.storage with tasks := some "oops" } }).storage.tasks
      ≠ (handleAddTask unaryJson 1 "a" emptyWorld).storage.tasks ∧
    (handleSaveEdit unaryJson { id := 1, text := "a" } "z"
      { emptyWorld with storage := { emptyWorld.storage with tasks := some "oops" } }).routes
      = [] ∧
    (handleSaveEdit unaryJson { id := 1, text := "a" } "z" emptyWorld).routes = ["Home"] ∧
    (handleSaveEdit unaryJson { id := 1, text := "a" } "z" emptyWorld).storage.tasks =
      some (unaryJson.stringify []) := by
  decide

/-- C6, amended. When the stored text is non-empty and does not parse (the read succeeding):
a starting `HomeScreen` displays the empty list, as it does when nothing is stored; but
`handleAddTask` and `handleSaveEdit` with non-blank text catch the parse error and stop:
one `getItem` and no `setItem` is issued, the storage and the displayed list stay as they
were, the error is logged, and `handleSaveEdit` does not navigate. -/
theorem parse_failure_aborts (J : Json) (w : World) (s : String)
    (hb : w.storage.tasks = some s) (hne : s ≠ "") (hp : J.parse s = none)
    (hg : w.storage.getFails w.calls.length = false) :
    loadAll J w = [] ∧
    loadAll J { w with storage := { w.storage with tasks := none } } = [] ∧
    (∀ (now : Int) (task : String), trim task ≠ "" →
      (handleAddTask J now task w).storage = w.storage ∧
      (handleAddTask J now task w).calls = w.calls ++ [StorageCall.getItem] ∧
      (handleAddTask J now task w).tasks = w.tasks ∧
      (handleAddTask J now task w).errors = w.errors ++ ["Error adding task:"]) ∧
    (∀ (task : Task) (text : String), trim text ≠ "" →
      (handleSaveEdit J task text w).storage = w.storage ∧
      (handleSaveEdit J task text w).calls = w.calls ++ [StorageCall.getItem] ∧
      (handleSaveEdit J task text w).tasks = w.tasks ∧
      (handleSaveEdit J task text w).routes = w.routes ∧
      (handleSaveEdit J task text w).errors = w.errors ++ ["Error saving edit:"]) := by
  have hps : parseStored J w.storage.tasks = none := by
    simp [parseStored, truthy, hb, hne, hp]
  refine ⟨?_, ?_, ?_, ?_⟩
  · cases hs : w.storage.setFails (w.calls.length + 1) <;>
      simp [loadAll, mountHome, getItem, loadTasksResume, saveTasks, setItem, consoleError,
        truthy, hb, hne, hp, hg, hs]
  · apply mountHome_tasks
    · exact hg
    · rfl
  · intro now task ht
    rw [handleAddTask_parseFails J now task w ht hg hps]
    exact ⟨rfl, rfl, rfl, rfl⟩
  · intro task text ht
    rw [handleSaveEdit_parseFails J task text w ht hg hps]
    exact ⟨rfl, rfl, rfl, rfl, rfl⟩

/-- Witness of C6 amended: the stored text `"oops"`. -/
theorem parse_failure_aborts_witness :
    (handleAddTask unaryJson 1 "a"
      { emptyWorld with storage := { emptyWorld.storage with tasks := some "oops" } }).storage =
      { emptyWorld.storage with tasks := some "oops" } :=
  ((parse_failure_aborts unaryJson
      { emptyWorld with storage := { emptyWorld.storage with tasks := some "oops" } } "oops"
      rfl (by decide) (by decide) rfl).2.2.1 1 "a" (by decide)).1

/-- C7, as stated, fails whenever the rejected write is the one of the `saveTasks` effect.
Delete: when that write rejects, the confirmed delete of record 1 still empties the displayed
list; the error is logged and the storage keeps the record.  Edit: when the write of
`handleSaveEdit` itself resolves and the following write of the effect rejects, the displayed
list is the edited list and `Error saving tasks:` is logged. -/
theorem effect_write_failure_changes_display :
    (handleDeleteTask unaryJson 1 DeleteChoice.delete
      { emptyWorld with
        tasks := [{ id := 1, text := "a" }],
        storage := { tasks := some (unaryStringify [{ id := 1, text := "a" }]),
                     getFails := fun _ => false, setFails := fun _ => true } }).tasks = [] ∧
    (handleDeleteTask unaryJson 1 DeleteChoice.delete
      { emptyWorld with
        tasks := [{ id := 1, text := "a" }],
        storage := { tasks := some (unaryStringify [{ id := 1, text := "a" }]),
                     getFails := fun _ => false, setFails := fun _ => true } }).tasks ≠
      [{ id := 1, text := "a" }] ∧
    (handleDeleteTask unaryJson 1 DeleteChoice.delete
      { emptyWorld with
        tasks := [{ id := 1, text := "a" }],
        storage := { tasks := some (unaryStringify [{ id := 1, text := "a" }]),
                     getFails := fun _ => false, setFails := fun _ => true } }).errors =
      ["Error saving tasks:"] ∧
    (handleDeleteTask unaryJson 1 DeleteChoice.delete
      { emptyWorld with
        tasks := [{ id := 1, text := "a" }],
        storage := { tasks := some (unaryStringify [{ id := 1, text := "a" }]),
                     getFails := fun _ => false, setFails := fun _ => true } }).storage.tasks =
      some (unaryStringify [{ id := 1, text := "a" }]) ∧
    (handleSaveEdit unaryJson { id := 1, text := "a" } "z"
      { emptyWorld with
        tasks := [{ id := 1, text := "a" }],
        storage := { tasks := some (unaryStringify [{ id := 1, text := "a" }]),
                     getFails := fun _ => false, setFails := fun n => n == 2 } }).tasks =
      [{ id := 1, text := "z" }] ∧
    (handleSaveEdit unaryJson { id := 1, text := "a" } "z"
      { emptyWorld with
        tasks := [{ id := 1, text := "a" }],
        storage := { tasks := some (unaryStringify [{ id := 1, text := "a" }]),
                     getFails := fun _ => false, setFails := fun n => n == 2 } }).tasks ≠
      [{ id := 1, text := "a" }] ∧
    (handleSaveEdit unaryJson { id := 1, text := "a" } "z"
      { emptyWorld with
        tasks := [{ id := 1, text := "a" }],
        storage := { tasks := some (unaryStringify [{ id := 1, text := "a" }]),
                     getFails := fun _ => false, setFails := fun n => n == 2 } }).errors =
      ["Error saving tasks:"] ∧
    (handleSaveEdit unaryJson { id := 1, text := "a" } "z"
      { emptyWorld with
        tasks := [{ id := 1, text := "a" }],
        storage := { tasks := some (unaryStringify [{ id := 1, text := "a" }]),
                     getFails := fun _ => false, setFails := fun n => n == 2 } }).storage.tasks =
      some (unaryStringify [{ id := 1, text := "z" }]) := by
  decide

/-- C7, amended. Every storage failure is caught and logged, and no alert is raised for it.
When the read or the own write of `handleAddTask` or `handleSaveEdit` rejects, the displayed
list and the storage stay as they were (and `handleSaveEdit` does not navigate).  When the
write of the `saveTasks` effect rejects, the stored text is left as it was before that write,
but the displayed list is already the new one: the filtered list after the confirmed delete
of `handleDeleteTask`, and the edited list (already persisted by the own write) after
`handleSaveEdit`. -/
theorem storage_failure_effects (J : Json) (w : World) :
    (w.storage.getFails w.calls.length = true ∨
        w.storage.setFails (w.calls.length + 1) = true →
      ∀ (now : Int) (task : String),
        (handleAddTask J now task w).tasks = w.tasks ∧
        (handleAddTask J now task w).storage = w.storage ∧
        (trim task ≠ "" →
          (handleAddTask J now task w).errors = w.errors ++ ["Error adding task:"] ∧
          (handleAddTask J now task w).alerts = w.alerts)) ∧
    (w.storage.getFails w.calls.length = true ∨
        w.storage.setFails (w.calls.length + 1) = true →
      ∀ (task : Task) (text : String),
        (handleSaveEdit J task text w).tasks = w.tasks ∧
        (handleSaveEdit J task text w).storage = w.storage ∧
        (trim text ≠ "" →
          (handleSaveEdit J task text w).errors = w.errors ++ ["Error saving edit:"] ∧
          (handleSaveEdit J task text w).alerts = w.alerts ∧
          (handleSaveEdit J task text w).routes = w.routes)) ∧
    (w.storage.getFails w.calls.length = false →
      w.storage.setFails (w.calls.length + 1) = false →
      w.storage.setFails (w.calls.length + 2) = true →
      ∀ (task : Task) (text : String) (l : List Task), trim text ≠ "" →
        parseStored J w.storage.tasks = some l →
        (handleSaveEdit J task text w).tasks = replaceById task.id text l ∧
        (handleSaveEdit J task text w).storage.tasks =
          some (J.stringify (replaceById task.id text l)) ∧
        (handleSaveEdit J task text w).errors = w.errors ++ ["Error saving tasks:"] ∧
        (handleSaveEdit J task text w).alerts = w.alerts ∧
        (handleSaveEdit J task text w).routes = w.routes ++ ["Home"]) ∧
    (w.storage.setFails w.calls.length = true →
      ∀ id : Int,
        (handleDeleteTask J id DeleteChoice.delete w).tasks = removeById id w.tasks ∧
        (handleDeleteTask J id DeleteChoice.delete w).storage = w.storage ∧
        (handleDeleteTask J id DeleteChoice.delete w).errors =
          w.errors ++ ["Error saving tasks:"]) := by
  refine ⟨?_, ?_, ?_, ?_⟩
  · intro hfail now task
    by_cases ht : trim task = ""
    · rw [handleAddTask_blank J now task w ht]
      exact ⟨rfl, rfl, fun h => absurd ht h⟩
    · cases hg : w.storage.getFails w.calls.length with
      | true =>
        rw [handleAddTask_getFails J now task w ht hg]
        exact ⟨rfl, rfl, fun _ => ⟨rfl, rfl⟩⟩
      | false =>
        have hs : w.storage.setFails (w.calls.length + 1) = true := by
          rcases hfail with h | h
          · rw [hg] at h; exact absurd h (by decide)
          · exact h
        cases hp : parseStored J w.storage.tasks with
        | none =>
          rw [handleAddTask_parseFails J now task w ht hg hp]
          exact ⟨rfl, rfl, fun _ => ⟨rfl, rfl⟩⟩
        | some l =>
          rw [handleAddTask_setFails J now task w l ht hg hp hs]
          exact ⟨rfl, rfl, fun _ => ⟨rfl, rfl⟩⟩
  · intro hfail task text
    by_cases ht : trim text = ""
    · rw [handleSaveEdit_blank J task text w ht]
      exact ⟨rfl, rfl, fun h => absurd ht h⟩
    · cases hg : w.storage.getFails w.calls.length with
      | true =>
        rw [handleSaveEdit_getFails J task text w ht hg]
        exact ⟨rfl, rfl, fun _ => ⟨rfl, rfl, rfl⟩⟩
      | false =>
        have hs : w.storage.setFails (w.calls.length + 1) = true := by
          rcases hfail with h | h
          · rw [hg] at h; exact absurd h (by decide)
          · exact h
        cases hp : parseStored J w.storage.tasks with
        | none =>
          rw [handleSaveEdit_parseFails J task text w ht hg hp]
          exact ⟨rfl, rfl, fun _ => ⟨rfl, rfl, rfl⟩⟩
        | some l =>
          rw [handleSaveEdit_setFails J task text w l ht hg hp hs]
          exact ⟨rfl, rfl, fun _ => ⟨rfl, rfl, rfl⟩⟩
  · intro hg hs he task text l ht hp
    rw [handleSaveEdit_effectFails J task text w l ht hg hp hs he]
    exact ⟨rfl, rfl, rfl, rfl, rfl⟩
  · intro hs id
    simp [handleDeleteTask, setTasks, saveTasks, setItem, alert, consoleError, hs]

/-- Witness of C7 amended: an edit whose own write rejects leaves the display as it was, and
an edit whose own write resolves while the write of the effect rejects displays the edited
list. -/
theorem storage_failure_effects_witness :
    (handleSaveEdit unaryJson { id := 1, text := "a" } "z"
      { emptyWorld with
        tasks := [{ id := 1, text := "a" }],
        storage := { tasks := some (unaryStringify [{ id := 1, text := "a" }]),
                     getFails := fun _ => false, setFails := fun _ => true } }).tasks =
      [{ id := 1, text := "a" }] ∧
    (handleSaveEdit unaryJson { id := 1, text := "a" } "z"
      { emptyWorld with
        tasks := [{ id := 1, text := "a" }],
        storage := { tasks := some (unaryStringify [{ id := 1, text := "a" }]),
                     getFails := fun _ => false, setFails := fun n => n == 2 } }).tasks =
      replaceById 1 "z" [{ id := 1, text := "a" }] :=
  ⟨((storage_failure_effects unaryJson
      { emptyWorld with
        tasks := [{ id := 1, text := "a" }],
        storage := { tasks := some (unaryStringify [{ id := 1, text := "a" }]),
                     getFails := fun _ => false, setFails := fun _ => true } }).2.1
      (Or.inr rfl) { id := 1, text := "a" } "z").1,
   ((storage_failure_effects unaryJson
      { emptyWorld with
        tasks := [{ id := 1, text := "a" }],
        storage := { tasks := some (unaryStringify [{ id := 1, text := "a" }]),
                     getFails := fun _ => false, setFails := fun n => n == 2 } }).2.2.1
      rfl rfl rfl { id := 1, text := "a" } "z" [{ id := 1, text := "a" }]
      (by decide) (by decide)).1⟩

/-- C8. For an edited text whose trim is empty `handleSaveEdit` raises the validation alert
and does nothing else: no storage call is issued, the storage and the displayed list stay
as they were, nothing is logged and there is no navigation. -/
theorem handleSaveEdit_validation (J : Json) (task : Task) (text : String) (w : World)
    (h : trim text = "") :
    (handleSaveEdit J task text w).alerts =
      w.alerts ++ [("Validation", "Task cannot be empty!")] ∧
    (handleSaveEdit J task text w).calls = w.calls ∧
    (handleSaveEdit J task text w).storage = w.storage ∧
    (handleSaveEdit J task text w).tasks = w.tasks ∧
    (handleSaveEdit J task text w).routes = w.routes ∧
    (handleSaveEdit J task text w).errors = w.errors := by
  rw [handleSaveEdit_blank J task text w h]
  exact ⟨rfl, rfl, rfl, rfl, rfl, rfl⟩

/-- Witness of C8: the edited text is a blank and a line feed. -/
theorem handleSaveEdit_validation_witness :
    (handleSaveEdit unaryJson { id := 1, text := "a" } " \n"
      { emptyWorld with tasks := [{ id := 1, text := "a" }] }).calls = [] :=
  (handleSaveEdit_validation unaryJson { id := 1, text := "a" } " \n"
    { emptyWorld with tasks := [{ id := 1, text := "a" }] } (by decide)).2.1

/-- C9. If the ids of a list are pairwise distinct they stay so after `replaceById` with any
id and text, after `removeById` with any id, and after `append` of a task whose id does not
occur in the list; `replaceById` leaves the sequence of ids unchanged; and every list
reachable from the empty list by these operations has pairwise distinct ids. -/
theorem ids_unique_invariant (l : List Task) :
    ((ids l).Nodup →
      (∀ (i : Int) (s : String), (ids (replaceById i s l)).Nodup) ∧
      (∀ i : Int, (ids (removeById i l)).Nodup) ∧
      (∀ t : Task, t.id ∉ ids l → (ids (append l t)).Nodup)) ∧
    (∀ (i : Int) (s : String), ids (replaceById i s l) = ids l) ∧
    (Reachable l → (ids l).Nodup) := by
  refine ⟨?_, fun i s => ids_replaceById i s l, nodup_ids_of_reachable l⟩
  intro h
  refine ⟨?_, ?_, ?_⟩
  · intro i s
    rw [ids_replaceById]
    exact h
  · intro i
    exact h.sublist (ids_removeById_sublist i l)
  · intro t hfresh
    exact nodup_ids_append l t h hfresh

/-- Witness of C9: the list `[{id:1,text:"a"},{id:2,text:"b"}]`, which is reachable by two
appends, extended by a task with the unused id 3. -/
theorem ids_unique_invariant_witness :
    (ids (append [{ id := 1, text := "a" }, { id := 2, text := "b" }]
      { id := 3, text := "c" })).Nodup ∧
    (ids [({ id := 1, text := "a" } : Task), { id := 2, text := "b" }]).Nodup :=
  ⟨((ids_unique_invariant [{ id := 1, text := "a" }, { id := 2, text := "b" }]).1
      (by decide)).2.2 { id := 3, text := "c" } (by decide),
   (ids_unique_invariant [{ id := 1, text := "a" }, { id := 2, text := "b" }]).2.2
      (Reachable.append [{ id := 1, text := "a" }] { id := 2, text := "b" }
        (Reachable.append [] { id := 1, text := "a" } Reachable.empty (by decide))
        (by decide))⟩

/-- C10. With a lawful JSON codec and a storage whose reads all have one outcome and whose
writes all have one outcome (all resolve, or all reject), running the load on start followed
by the save effect twice leaves the same stored text as running it once, for every stored
state (nothing stored, a text that does not parse, a text that parses); this holds both for
the mounting of `HomeScreen` and for the sequential composition `saveTasks (loadTasks ...)`. -/
theorem saveAll_loadAll_idempotent (J : Json) (hJ : J.Lawful) (w : World)
    (hget : ∀ n, w.storage.getFails n = w.storage.getFails 0)
    (hset : ∀ n, w.storage.setFails n = w.storage.setFails 0) :
    (mountHome J (mountHome J w)).storage.tasks = (mountHome J w).storage.tasks ∧
    (saveAfterLoad J (saveAfterLoad J w)).storage.tasks = (saveAfterLoad J w).storage.tasks := by
  constructor
  · have h1 := mountHome_storage J w hget hset
    have hgf : (mountHome J w).storage.getFails = w.storage.getFails := by
      rw [h1]; split <;> rfl
    have hsf : (mountHome J w).storage.setFails = w.storage.setFails := by
      rw [h1]; split <;> rfl
    have h2 := mountHome_storage J (mountHome J w) (by rw [hgf]; exact hget)
      (by rw [hsf]; exact hset)
    rw [hgf, hsf] at h2
    cases hs : w.storage.setFails 0 <;> cases hg : w.storage.getFails 0 <;>
      simp only [hs, hg] at h1 h2 <;> rw [h1] at h2 <;>
      simp [parseStored_stringify J hJ] at h2 <;> rw [h2, h1] <;> simp
  · have h1 := saveAfterLoad_storage J w hget hset
    have hgf : (saveAfterLoad J w).storage.getFails = w.storage.getFails := by
      rw [h1]; split <;> rfl
    have hsf : (saveAfterLoad J w).storage.setFails = w.storage.setFails := by
      rw [h1]; split <;> rfl
    have h2 := saveAfterLoad_storage J (saveAfterLoad J w) (by rw [hgf]; exact hget)
      (by rw [hsf]; exact hset)
    rw [hgf, hsf] at h2
    cases hs : w.storage.setFails 0 <;> cases hg : w.storage.getFails 0 <;>
      simp only [hs, hg] at h1 h2 <;> rw [h1] at h2 <;>
      simp [parseStored_stringify J hJ] at h2 <;> rw [h2, h1] <;> simp

/-- Witness of C10: a storage holding two tasks, and the stored text after one round. -/
theorem saveAll_loadAll_idempotent_witness :
    (mountHome unaryJson (mountHome unaryJson
      { emptyWorld with storage := { emptyWorld.storage with
          tasks := some (unaryStringify [{ id := 1, text := "a" }, { id := 2, text := "b" }]) }
      })).storage.tasks =
    (mountHome unaryJson
      { emptyWorld with storage := { emptyWorld.storage with
          tasks := some (unaryStringify [{ id := 1, text := "a" }, { id := 2, text := "b" }]) }
      }).storage.tasks :=
  (saveAll_loadAll_idempotent unaryJson unaryJson_lawful
    { emptyWorld with storage := { emptyWorld.storage with
        tasks := some (unaryStringify [{ id := 1, text := "a" }, { id := 2, text := "b" }]) }
    } (fun _ => rfl) (fun _ => rfl)).1

end TaskApp
